import Mathlib

/-!
Verification development for the bitpoc-explorer wallet engine.

Shallow embedding of the wallet core found in the repository sources:
- fee estimation effects of the two WalletDashboard revisions
  (src/pages/WalletDashboard.tsx, both the earlier revision and the
  updated revision that adds max send and the dust rule),
- the performSend transaction builder of both revisions,
- the gap-limit address discovery scan of src/utils/Wallet.tsx,
- the getUtxos aggregation loop of src/utils/Wallet.tsx,
- the rebuildTx edit operation of src/pages/BlockDetail.tsx
  (the raw transaction broadcast tool).

JavaScript numbers holding satoshi amounts are modelled as Int
(intermediate change computations can be negative); counts and
indices are Nat; Math.ceil on fractional fee arithmetic is Int.ceil
over Rat.  Network calls are modelled as oracle functions passed in
as parameters; a failed request is the oracle returning none.
-/

namespace BitPoc

/-! ## Fee estimation

Earlier WalletDashboard revision (src/src/pages/WalletDashboard.tsx,
lines 103-115):
  const vsize = inputs * 68 + outputs * 43 + 11
  setEstimatedFee(Math.ceil(feeRate * vsize))

Updated revision (src/unnamed/part_010, lines 156-168):
  const vsize = Math.ceil(inputs * 57.5 + outputs * 43 + 10.5)
  setEstimatedVsize(vsize)
  setEstimatedFee(Math.ceil(feeRate * vsize))
-/

/-- Virtual size model of the earlier revision: integer linear form. -/
def estimatedVsizePrev (inputs outputs : ℕ) : ℕ :=
  inputs * 68 + outputs * 43 + 11

/-- Fee of the earlier revision: Math.ceil(feeRate * vsize). -/
def estimatedFeePrev (feeRate : ℚ) (inputs outputs : ℕ) : ℤ :=
  ⌈feeRate * (estimatedVsizePrev inputs outputs : ℚ)⌉

/-- Virtual size of the updated revision:
Math.ceil(inputs * 57.5 + outputs * 43 + 10.5). -/
def estimatedVsize (inputs outputs : ℕ) : ℤ :=
  ⌈(inputs : ℚ) * 57.5 + (outputs : ℚ) * 43 + 10.5⌉

/-- Fee of the updated revision: Math.ceil(feeRate * vsize). -/
def estimatedFee (feeRate : ℚ) (inputs outputs : ℕ) : ℤ :=
  ⌈feeRate * (estimatedVsize inputs outputs : ℚ)⌉

/-- Output count chosen by the updated revision effect:
const outputs = recipient ? 2 : 1. -/
def outputCountFor (hasRecipient : Bool) : ℕ :=
  if hasRecipient then 2 else 1

/-! ## Data model for the transaction builder -/

/-- A tracked unspent output: {txid, vout, value, address, status.confirmed}
(interface UTXO of src/utils/Wallet.tsx). -/
structure Utxo where
  txid : String
  vout : ℕ
  value : ℤ
  address : String
  confirmed : Bool
deriving DecidableEq, Repr

/-- One PSBT input as assembled by performSend: previous-output
reference (hash, index), the witness UTXO descriptor (spending script
and value; the p2wpkh script is a function of the owning address, so
the address stands for it here), and the sequence number. -/
structure TxInput where
  hash : String
  index : ℕ
  witnessScript : String
  witnessValue : ℤ
  sequence : ℕ
deriving DecidableEq, Repr

/-- One transaction output: address and value. -/
structure TxOutput where
  address : String
  value : ℤ
deriving DecidableEq, Repr

/-- The transaction assembled by performSend, before signing. -/
structure BuiltTx where
  inputs : List TxInput
  outputs : List TxOutput
deriving DecidableEq, Repr

/-- Error outcomes of performSend; each constructor corresponds to one
thrown message in the source. -/
inductive SendError where
  /-- throw new Error (Invalid amount) -/
  | invalidAmount
  /-- throw new Error (No UTXOs selected) -/
  | noUtxosSelected
  /-- throw new Error (Insufficient funds (including fee)) -/
  | insufficientFunds
  /-- throw new Error (Change below dust threshold) -/
  | dustChange
  /-- throw new Error (UTXO address not in wallet); index === -1 -/
  | utxoAddressNotInWallet
  /-- earlier revision: change < 0 check, outputs spend more than inputs -/
  | outputsExceedInputs
  /-- earlier revision: key derivation for an index not in the wallet -/
  | derivationFailure
deriving DecidableEq, Repr

/-- totalInput = selected.reduce((sum, u) => sum + u.value, 0). -/
def totalValue (selected : List Utxo) : ℤ :=
  (selected.map Utxo.value).sum

/-- The input record the updated revision (part_010) builds for a
selected Utxo.  The source passes no sequence field to psbt.addInput,
so the bitcoinjs-lib default sequence 0xffffffff applies. -/
def mkInput (u : Utxo) : TxInput :=
  { hash := u.txid, index := u.vout, witnessScript := u.address,
    witnessValue := u.value, sequence := 0xffffffff }

/-- The input record of the earlier revision
(src/src/pages/WalletDashboard.tsx): sequence 0xfffffffd is passed
explicitly to enable replace-by-fee. -/
def mkInputPrev (u : Utxo) : TxInput :=
  { hash := u.txid, index := u.vout, witnessScript := u.address,
    witnessValue := u.value, sequence := 0xfffffffd }

/-- A sequence number signals replace-by-fee when it is below
0xfffffffe. -/
def signalsRBF (seq : ℕ) : Prop := seq < 0xfffffffe

instance (seq : ℕ) : Decidable (signalsRBF seq) := by
  unfold signalsRBF; infer_instance

/-- Input-building loop of the updated revision: for each selected
Utxo, receiveAddresses.indexOf(utxo.address) === -1 throws, otherwise
psbt.addInput is called with the witness UTXO descriptor. -/
def buildInputs (wallet : List String) : List Utxo → Except SendError (List TxInput)
  | [] => Except.ok []
  | u :: rest =>
    if u.address ∈ wallet then
      match buildInputs wallet rest with
      | Except.ok ins => Except.ok (mkInput u :: ins)
      | Except.error e => Except.error e
    else Except.error SendError.utxoAddressNotInWallet

/-- Input-building loop of the earlier revision: no explicit index
check; an address missing from the wallet makes key derivation fail. -/
def buildInputsPrev (wallet : List String) : List Utxo → Except SendError (List TxInput)
  | [] => Except.ok []
  | u :: rest =>
    if u.address ∈ wallet then
      match buildInputsPrev wallet rest with
      | Except.ok ins => Except.ok (mkInputPrev u :: ins)
      | Except.error e => Except.error e
    else Except.error SendError.derivationFailure

/-- performSend of the updated revision (src/unnamed/part_010,
lines 221-295), pure data path.  In source order: amount <= 0 check,
empty-selection check, totalInput < amount + fee check, dust check
(changeAmount < 546 && changeAmount > 0), input building, recipient
output, and a change output exactly when changeAmount > 0. -/
def performSend (wallet : List String) (selected : List Utxo)
    (amount fee : ℤ) (recipient changeAddr : String) :
    Except SendError BuiltTx :=
  if amount ≤ 0 then Except.error SendError.invalidAmount
  else if selected.isEmpty then Except.error SendError.noUtxosSelected
  else
    let totalInput := totalValue selected
    let changeAmount := totalInput - amount - fee
    if totalInput < amount + fee then Except.error SendError.insufficientFunds
    else if changeAmount < 546 ∧ changeAmount > 0 then Except.error SendError.dustChange
    else
      match buildInputs wallet selected with
      | Except.error e => Except.error e
      | Except.ok ins =>
        Except.ok
          { inputs := ins,
            outputs := { address := recipient, value := amount } ::
              (if changeAmount > 0 then
                [{ address := changeAddr, value := changeAmount }] else []) }

/-- performSend of the earlier revision
(src/src/pages/WalletDashboard.tsx, lines 141-211): no dust check; a
change output is added only when change > 546 (change in (0, 546]
is silently left to the fee); inputs carry sequence 0xfffffffd. -/
def performSendPrev (wallet : List String) (selected : List Utxo)
    (amount fee : ℤ) (recipient changeAddr : String) :
    Except SendError BuiltTx :=
  if amount ≤ 0 then Except.error SendError.invalidAmount
  else if selected.isEmpty then Except.error SendError.noUtxosSelected
  else
    let totalInput := totalValue selected
    let change := totalInput - amount - fee
    if change < 0 then Except.error SendError.outputsExceedInputs
    else
      match buildInputsPrev wallet selected with
      | Except.error e => Except.error e
      | Except.ok ins =>
        Except.ok
          { inputs := ins,
            outputs := { address := recipient, value := amount } ::
              (if change > 546 then
                [{ address := changeAddr, value := change }] else []) }

/-- handleMax of the updated revision (src/unnamed/part_010,
lines 125-131): maxSendable = Math.max(0, total - fee). -/
def handleMax (selected : List Utxo) (fee : ℤ) : ℤ :=
  max 0 (totalValue selected - fee)

/-! ## Address discovery (src/utils/Wallet.tsx, lines 254-299)

The scan derives addresses at increasing indices and queries the
activity oracle; a response is some hasActivity, a failed request
(the catch branch) is none.  GAP_LIMIT = 20, LOOKAHEAD = 1. -/

def GAP_LIMIT : ℕ := 20

def LOOKAHEAD : ℕ := 1

/-- Mutable loop state of scanForActivity: the next index to query,
maxUsedIndex (initially -1), and consecutiveUnused. -/
structure ScanState where
  index : ℕ
  maxUsedIndex : ℤ
  consecutiveUnused : ℕ
deriving DecidableEq, Repr

/-- One iteration of the scan loop body: on activity set
maxUsedIndex = index and reset consecutiveUnused to 0; on no
activity, and equally in the catch branch of a failed lookup,
increment consecutiveUnused; always advance index. -/
def scanStep (oracle : ℕ → Option Bool) (s : ScanState) : ScanState :=
  match oracle s.index with
  | some true =>
      { index := s.index + 1, maxUsedIndex := (s.index : ℤ), consecutiveUnused := 0 }
  | some false =>
      { index := s.index + 1, maxUsedIndex := s.maxUsedIndex,
        consecutiveUnused := s.consecutiveUnused + 1 }
  | none =>
      { index := s.index + 1, maxUsedIndex := s.maxUsedIndex,
        consecutiveUnused := s.consecutiveUnused + 1 }

/-- The while loop (while consecutiveUnused < GAP_LIMIT), with fuel:
none means the given fuel did not reach termination. -/
def scanLoop (oracle : ℕ → Option Bool) : ℕ → ScanState → Option ScanState
  | 0, s => if GAP_LIMIT ≤ s.consecutiveUnused then some s else none
  | fuel + 1, s =>
      if GAP_LIMIT ≤ s.consecutiveUnused then some s
      else scanLoop oracle fuel (scanStep oracle s)

/-- scanForActivity: run the loop from index 0, maxUsedIndex -1,
consecutiveUnused 0. -/
def scanForActivity (oracle : ℕ → Option Bool) (fuel : ℕ) : Option ScanState :=
  scanLoop oracle fuel { index := 0, maxUsedIndex := -1, consecutiveUnused := 0 }

/-- newIndex = maxUsedIndex >= 0 ? maxUsedIndex + GAP_LIMIT + LOOKAHEAD - 1
: GAP_LIMIT + LOOKAHEAD - 1 (line 293). -/
def newReceiveIndex (s : ScanState) : ℤ :=
  if 0 ≤ s.maxUsedIndex then s.maxUsedIndex + GAP_LIMIT + LOOKAHEAD - 1
  else GAP_LIMIT + LOOKAHEAD - 1

/-- The scan ends with setCurrentReceiveIndex(newIndex) (line 294):
the prior receive index is overwritten unconditionally, it does not
enter the computation. -/
def receiveIndexAfterScan (priorIndex : ℤ) (s : ScanState) : ℤ :=
  newReceiveIndex s

/-- Synthetic oracle where only index 3 reports activity. -/
def oracleOnlyThree : ℕ → Option Bool := fun i => some (i == 3)

/-- Oracle where every address reports no activity. -/
def oracleAllUnused : ℕ → Option Bool := fun _ => some false

/-! ## UTXO refresh (getUtxos, src/utils/Wallet.tsx, lines 385-406) -/

/-- One element of the per-address UTXO listing returned by the
external collaborator. -/
structure FetchedUtxo where
  txid : String
  vout : ℕ
  value : ℤ
  confirmed : Bool
deriving DecidableEq, Repr

/-- The per-address block getUtxos appends: each fetched entry tagged
with the queried address; a failed request (catch branch) contributes
nothing. -/
def tagUtxos (address : String) (resp : Option (List FetchedUtxo)) : List Utxo :=
  match resp with
  | some us =>
      us.map (fun u =>
        { txid := u.txid, vout := u.vout, value := u.value,
          address := address, confirmed := u.confirmed })
  | none => []

/-- The aggregation loop: for each address in order, push the fetched
entries onto the accumulated list. -/
def getUtxosLoop (fetch : String → Option (List FetchedUtxo)) :
    List String → List Utxo → List Utxo
  | [], acc => acc
  | a :: rest, acc => getUtxosLoop fetch rest (acc ++ tagUtxos a (fetch a))

/-- getUtxos: if (!allAddresses.length) return []; otherwise aggregate
per address in derivation order. -/
def getUtxos (fetch : String → Option (List FetchedUtxo)) (addrs : List String) :
    List Utxo :=
  if addrs.length = 0 then [] else getUtxosLoop fetch addrs []

/-! ## Raw transaction editor (rebuildTx, src/pages/BlockDetail.tsx,
lines 461-498)

Only output values are rewritten, and the serialized size of a
transaction does not depend on the 8-byte value fields, so the
decoded transaction is modelled by its list of output values plus its
(fixed) virtual size. -/

/-- Decoded transaction held in parsedTx: output values and vsize. -/
structure ParsedTx where
  outs : List ℤ
  vsize : ℕ
deriving DecidableEq, Repr

/-- Error outcomes of rebuildTx; one constructor per thrown message. -/
inductive RebuildError where
  /-- throw new Error (Invalid amount) -/
  | invalidAmount
  /-- throw new Error (Invalid fee rate) -/
  | invalidFeeRate
  /-- throw new Error (Insufficient funds for new fee) -/
  | insufficientFundsForFee
  /-- throw new Error (Change below dust threshold) -/
  | dustChange
deriving DecidableEq, Repr

/-- parsedTx.totalOutput = outputs.reduce((sum, o) => sum + o.value, 0). -/
def totalOutput (p : ParsedTx) : ℤ := p.outs.sum

/-- rebuildTx: set the first output value to the edited amount,
recompute targetFee = Math.ceil(vsize * feeRateVal) (both integers,
so the ceil is exact), and when there is more than one output set the
last output to newChange = (totalOutput + targetFee) - amount -
targetFee, rejecting a negative or dust change.  Success returns the
new output values (the re-encoded hex). -/
def rebuildTx (p : ParsedTx) (editAmount editFeeRate : ℤ) :
    Except RebuildError (List ℤ) :=
  if editAmount ≤ 0 then Except.error RebuildError.invalidAmount
  else if editFeeRate ≤ 0 then Except.error RebuildError.invalidFeeRate
  else
    let outsAmended := if 0 < p.outs.length then p.outs.set 0 editAmount else p.outs
    let targetFee := (p.vsize : ℤ) * editFeeRate
    if 1 < p.outs.length then
      let approxInputTotal := totalOutput p + targetFee
      let newChange := approxInputTotal - editAmount - targetFee
      if newChange < 0 then Except.error RebuildError.insufficientFundsForFee
      else if newChange < 546 ∧ newChange > 0 then Except.error RebuildError.dustChange
      else Except.ok (outsAmended.set (outsAmended.length - 1) newChange)
    else Except.ok outsAmended

/-- UI state touched by the rebuild handler: the decoded output
values standing for the raw hex, the fixed vsize, and rebuildError. -/
structure EditorState where
  rawOuts : List ℤ
  vsize : ℕ
  rebuildError : Option RebuildError
deriving DecidableEq, Repr

/-- One click of Rebuild: on success setRawHex(newHex) with the error
cleared; on failure setRebuildError(message) and the hex untouched. -/
def rebuildClick (st : EditorState) (editAmount editFeeRate : ℤ) : EditorState :=
  match rebuildTx { outs := st.rawOuts, vsize := st.vsize } editAmount editFeeRate with
  | Except.ok outs => { st with rawOuts := outs, rebuildError := none }
  | Except.error e => { st with rebuildError := some e }

/-! ## Helper lemmas -/

/-- When every selected address belongs to the wallet, input building
succeeds and produces one input per Utxo, in selection order. -/
lemma buildInputs_all_in (wallet : List String) (selected : List Utxo)
    (h : ∀ u ∈ selected, u.address ∈ wallet) :
    buildInputs wallet selected = Except.ok (selected.map mkInput) := by
  induction selected with
  | nil => rfl
  | cons u rest ih =>
      have hu : u.address ∈ wallet := h u (by simp)
      have hr := ih (fun v hv => h v (by simp [hv]))
      simp [buildInputs, hu, hr]

/-- A loop iteration never pushes consecutiveUnused past the gap
limit when it was below it. -/
lemma scanStep_consec_le (oracle : ℕ → Option Bool) (s : ScanState)
    (h : s.consecutiveUnused < GAP_LIMIT) :
    (scanStep oracle s).consecutiveUnused ≤ GAP_LIMIT := by
  cases hq : oracle s.index with
  | none => simp [scanStep, hq]; omega
  | some b => cases b <;> simp [scanStep, hq] <;> omega

/-- If the loop terminates from a state within the gap limit, the
final consecutiveUnused equals the gap limit exactly. -/
lemma scanLoop_stops (oracle : ℕ → Option Bool) :
    ∀ (fuel : ℕ) (s s' : ScanState), s.consecutiveUnused ≤ GAP_LIMIT →
      scanLoop oracle fuel s = some s' → s'.consecutiveUnused = GAP_LIMIT := by
  intro fuel
  induction fuel with
  | zero =>
      intro s s' hle h
      unfold scanLoop at h
      split_ifs at h with hg
      cases h; omega
  | succ n ih =>
      intro s s' hle h
      unfold scanLoop at h
      split_ifs at h with hg
      · cases h; omega
      · have hlt : s.consecutiveUnused < GAP_LIMIT := by omega
        exact ih _ _ (scanStep_consec_le oracle s hlt) h

/-- The aggregation loop appends, per address in order, exactly that
address block. -/
lemma getUtxosLoop_eq (fetch : String → Option (List FetchedUtxo)) :
    ∀ (addrs : List String) (acc : List Utxo),
      getUtxosLoop fetch addrs acc =
        acc ++ addrs.flatMap (fun a => tagUtxos a (fetch a)) := by
  intro addrs
  induction addrs with
  | nil => intro acc; simp [getUtxosLoop]
  | cons a rest ih =>
      intro acc
      simp [getUtxosLoop, ih, List.flatMap_cons, List.append_assoc]

/-- Math.ceil of a natural number divided by two, as exact natural
arithmetic. -/
lemma ceil_half (a : ℕ) : ⌈((a : ℚ)) / 2⌉ = (((a + 1) / 2 : ℕ) : ℤ) := by
  rcases Nat.even_or_odd a with ⟨k, hk⟩ | ⟨k, hk⟩
  · subst hk
    have h1 : ((k + k : ℕ) : ℚ) / 2 = (k : ℚ) := by push_cast; ring
    rw [h1, Int.ceil_natCast]
    norm_cast
    omega
  · subst hk
    have h1 : ((2 * k + 1 : ℕ) : ℚ) / 2 = (k : ℚ) + 1 / 2 := by push_cast; ring
    have h2 : ((2 * k + 1 + 1) / 2 : ℕ) = k + 1 := by omega
    rw [h1, h2]
    rw [Int.ceil_eq_iff]
    constructor <;> push_cast <;> norm_num

/-- Closed form of rebuildTx under valid inputs and at least two
outputs: the target fee cancels out of the change computation. -/
lemma rebuildTx_eq (p : ParsedTx) (a fr : ℤ)
    (ha : 0 < a) (hf : 0 < fr) (hlen : 1 < p.outs.length) :
    rebuildTx p a fr =
      (if totalOutput p - a < 0 then Except.error RebuildError.insufficientFundsForFee
       else if totalOutput p - a < 546 ∧ totalOutput p - a > 0 then
         Except.error RebuildError.dustChange
       else Except.ok ((p.outs.set 0 a).set (p.outs.length - 1) (totalOutput p - a))) := by
  have h0 : 0 < p.outs.length := by omega
  have hch : totalOutput p + (p.vsize : ℤ) * fr - a - (p.vsize : ℤ) * fr
      = totalOutput p - a := by ring
  simp only [rebuildTx, if_neg (not_le.mpr ha), if_neg (not_le.mpr hf),
    if_pos h0, if_pos hlen, hch, List.length_set]

/-! ## Claims -/

/-- C1 (amended): in the updated builder, a computed change strictly
between 0 and 546 fails with DustChange rather than being donated to
fee, and a successful build carries a change output exactly when the
change is at least 546, none when it is zero; at exactly 546 the
build succeeds with a 546-unit change output. -/
theorem dustChange_rule (wallet : List String) (selected : List Utxo)
    (amount fee : ℤ) (recipient changeAddr : String) :
    (0 < amount → selected ≠ [] → amount + fee ≤ totalValue selected →
      0 < totalValue selected - amount - fee →
      totalValue selected - amount - fee < 546 →
      performSend wallet selected amount fee recipient changeAddr =
        Except.error SendError.dustChange)
    ∧ (∀ tx, performSend wallet selected amount fee recipient changeAddr = Except.ok tx →
        (totalValue selected - amount - fee = 0 ∧
          tx.outputs = [{ address := recipient, value := amount }]) ∨
        (546 ≤ totalValue selected - amount - fee ∧
          tx.outputs = [{ address := recipient, value := amount },
            { address := changeAddr, value := totalValue selected - amount - fee }])) := by
  constructor
  · intro ha hne hge h0 hlt
    have h1 : ¬ amount ≤ 0 := by omega
    have h2 : selected.isEmpty = false := List.isEmpty_eq_false.mpr hne
    have h3 : ¬ totalValue selected < amount + fee := by omega
    simp [performSend, h1, h2, h3, hlt, h0]
  · intro tx h
    simp only [performSend] at h
    split_ifs at h with h1 h2 h3 h4 h5
    · rcases hb : buildInputs wallet selected with e | ins <;> rw [hb] at h
      · simp at h
      · injection h with h'
        subst h'
        exact Or.inr ⟨by omega, rfl⟩
    · rcases hb : buildInputs wallet selected with e | ins <;> rw [hb] at h
      · simp at h
      · injection h with h'
        subst h'
        exact Or.inl ⟨by omega, rfl⟩

/-- C1 witness: one selected output of 10645 units, sending 10000
with fee 100 leaves change 545, strictly inside the dust band, and
the builder fails with DustChange. -/
theorem dustChange_rule_witness :
    performSend ["a1"]
      [{ txid := "t0", vout := 0, value := 10645, address := "a1", confirmed := true }]
      10000 100 "r" "c" = Except.error SendError.dustChange :=
  (dustChange_rule ["a1"]
      [{ txid := "t0", vout := 0, value := 10645, address := "a1", confirmed := true }]
      10000 100 "r" "c").1
    (by decide) (by decide) (by decide) (by decide) (by decide)

/-- C1 counterexample: at change exactly 546 the claim as stated
(fail whenever 0 < change <= 546) predicts DustChange, but the
builder succeeds and adds a 546-unit change output: the source check
is changeAmount < 546 && changeAmount > 0, strict at 546. -/
theorem dustChange_boundary_counterexample :
    (0 : ℤ) < 546 ∧ (546 : ℤ) ≤ 546
    ∧ totalValue
        [{ txid := "t0", vout := 0, value := 10646, address := "a1", confirmed := true }]
        - 10000 - 100 = 546
    ∧ performSend ["a1"]
        [{ txid := "t0", vout := 0, value := 10646, address := "a1", confirmed := true }]
        10000 100 "r" "c" =
      Except.ok
        { inputs := [mkInput
            { txid := "t0", vout := 0, value := 10646, address := "a1", confirmed := true }],
          outputs := [{ address := "r", value := 10000 },
                      { address := "c", value := 546 }] } :=
  ⟨by decide, by decide, by decide, rfl⟩

/-- C2: the send operation never returns a built transaction whose
selected input total is below amount plus fee, and whenever the
selection is valid but the total is below amount plus fee it fails
with InsufficientFunds. -/
theorem coinSelector_insufficientFunds (wallet : List String) (selected : List Utxo)
    (amount fee : ℤ) (recipient changeAddr : String) :
    (∀ tx, performSend wallet selected amount fee recipient changeAddr = Except.ok tx →
      amount + fee ≤ totalValue selected)
    ∧ (0 < amount → selected ≠ [] → totalValue selected < amount + fee →
        performSend wallet selected amount fee recipient changeAddr =
          Except.error SendError.insufficientFunds) := by
  constructor
  · intro tx h
    simp only [performSend] at h
    split_ifs at h with h1 h2 h3 h4 <;> omega
  · intro ha hne hlt
    have h1 : ¬ amount ≤ 0 := by omega
    have h2 : selected.isEmpty = false := List.isEmpty_eq_false.mpr hne
    simp [performSend, h1, h2, hlt]

/-- C2 witness: selecting 100000 and 50000 units and asking for
160000 with fee 2000 is rejected with InsufficientFunds. -/
theorem coinSelector_insufficientFunds_witness :
    performSend ["a1"]
      [{ txid := "t0", vout := 0, value := 100000, address := "a1", confirmed := true },
       { txid := "t1", vout := 1, value := 50000, address := "a1", confirmed := true }]
      160000 2000 "r" "c" = Except.error SendError.insufficientFunds :=
  (coinSelector_insufficientFunds ["a1"]
      [{ txid := "t0", vout := 0, value := 100000, address := "a1", confirmed := true },
       { txid := "t1", vout := 1, value := 50000, address := "a1", confirmed := true }]
      160000 2000 "r" "c").2
    (by decide) (by decide) (by decide)

/-- C3: the scan starts at index 0; one loop iteration resets
consecutiveUnused to 0 and records the index on activity, increments
it on no activity, and a failed lookup likewise increments it without
aborting; any completed scan ends with consecutiveUnused exactly at
the gap limit; over the oracle where only index 3 is active the scan
completes with maxUsedIndex 3 after exactly GAP_LIMIT misses past
index 3 (24 queries, and no smaller fuel completes); with no activity
at all, maxUsedIndex stays -1. -/
theorem addressDiscovery_scan :
    (∀ (oracle : ℕ → Option Bool) (s : ScanState), oracle s.index = some true →
      scanStep oracle s =
        { index := s.index + 1, maxUsedIndex := (s.index : ℤ), consecutiveUnused := 0 })
    ∧ (∀ (oracle : ℕ → Option Bool) (s : ScanState), oracle s.index = some false →
      scanStep oracle s =
        { index := s.index + 1, maxUsedIndex := s.maxUsedIndex,
          consecutiveUnused := s.consecutiveUnused + 1 })
    ∧ (∀ (oracle : ℕ → Option Bool) (s : ScanState), oracle s.index = none →
      scanStep oracle s =
        { index := s.index + 1, maxUsedIndex := s.maxUsedIndex,
          consecutiveUnused := s.consecutiveUnused + 1 })
    ∧ (∀ (oracle : ℕ → Option Bool) (fuel : ℕ) (s : ScanState),
        scanForActivity oracle fuel = some s → s.consecutiveUnused = GAP_LIMIT)
    ∧ scanForActivity oracleOnlyThree (4 + GAP_LIMIT) =
        some { index := 4 + GAP_LIMIT, maxUsedIndex := 3, consecutiveUnused := GAP_LIMIT }
    ∧ (∀ fuel, fuel < 4 + GAP_LIMIT → scanForActivity oracleOnlyThree fuel = none)
    ∧ scanForActivity oracleAllUnused GAP_LIMIT =
        some { index := GAP_LIMIT, maxUsedIndex := -1, consecutiveUnused := GAP_LIMIT } := by
  refine ⟨?_, ?_, ?_, ?_, by decide, by decide, by decide⟩
  · intro oracle s h; simp [scanStep, h]
  · intro oracle s h; simp [scanStep, h]
  · intro oracle s h; simp [scanStep, h]
  · intro oracle fuel s h
    exact scanLoop_stops oracle fuel _ s (Nat.zero_le _) h

/-- C3 witness: the step equations at concrete states (activity at
index 3 resets the tally and records the index; a miss and a failed
lookup both increment it), and a completed concrete scan ends at the
gap limit. -/
theorem addressDiscovery_scan_witness :
    scanStep oracleOnlyThree { index := 3, maxUsedIndex := -1, consecutiveUnused := 3 } =
      { index := 4, maxUsedIndex := 3, consecutiveUnused := 0 }
    ∧ scanStep oracleAllUnused { index := 0, maxUsedIndex := -1, consecutiveUnused := 0 } =
      { index := 1, maxUsedIndex := -1, consecutiveUnused := 1 }
    ∧ scanStep (fun _ => none) { index := 5, maxUsedIndex := 2, consecutiveUnused := 7 } =
      { index := 6, maxUsedIndex := 2, consecutiveUnused := 8 }
    ∧ ({ index := 4 + GAP_LIMIT, maxUsedIndex := 3,
         consecutiveUnused := GAP_LIMIT } : ScanState).consecutiveUnused = GAP_LIMIT :=
  ⟨addressDiscovery_scan.1 oracleOnlyThree
      { index := 3, maxUsedIndex := -1, consecutiveUnused := 3 } (by decide),
   addressDiscovery_scan.2.1 oracleAllUnused
      { index := 0, maxUsedIndex := -1, consecutiveUnused := 0 } (by decide),
   addressDiscovery_scan.2.2.1 (fun _ => none)
      { index := 5, maxUsedIndex := 2, consecutiveUnused := 7 } rfl,
   addressDiscovery_scan.2.2.2.1 oracleOnlyThree (4 + GAP_LIMIT)
      { index := 4 + GAP_LIMIT, maxUsedIndex := 3, consecutiveUnused := GAP_LIMIT }
      (by decide)⟩

/-- C4 (amended): the completed scan overwrites the receive index
with a value computed from the scan result alone - maxUsedIndex +
GAP_LIMIT + LOOKAHEAD - 1, or GAP_LIMIT + LOOKAHEAD - 1 when nothing
was found - independent of the prior index; this value is at least
GAP_LIMIT + LOOKAHEAD - 1 and above maxUsedIndex, so the address set
is extended exactly when the prior index does not exceed it, and a
larger prior index is retracted. -/
theorem scan_receiveIndex_overwrite (priorIndex : ℤ) (oracle : ℕ → Option Bool)
    (fuel : ℕ) (s : ScanState) (h : scanForActivity oracle fuel = some s) :
    receiveIndexAfterScan priorIndex s = newReceiveIndex s
    ∧ (GAP_LIMIT + LOOKAHEAD - 1 : ℤ) ≤ newReceiveIndex s
    ∧ s.maxUsedIndex < newReceiveIndex s
    ∧ (priorIndex ≤ receiveIndexAfterScan priorIndex s ↔ priorIndex ≤ newReceiveIndex s) := by
  refine ⟨rfl, ?_, ?_, Iff.rfl⟩ <;>
  · unfold newReceiveIndex
    split_ifs with hm <;> simp [GAP_LIMIT, LOOKAHEAD] <;> omega

/-- C4 witness: a concrete completed scan with no activity, prior
index 5: the computed index is 20 and the equivalence holds there. -/
theorem scan_receiveIndex_overwrite_witness :
    receiveIndexAfterScan 5 { index := 20, maxUsedIndex := -1, consecutiveUnused := 20 } =
      newReceiveIndex { index := 20, maxUsedIndex := -1, consecutiveUnused := 20 }
    ∧ (GAP_LIMIT + LOOKAHEAD - 1 : ℤ) ≤
        newReceiveIndex { index := 20, maxUsedIndex := -1, consecutiveUnused := 20 }
    ∧ ({ index := 20, maxUsedIndex := -1, consecutiveUnused := 20 } : ScanState).maxUsedIndex <
        newReceiveIndex { index := 20, maxUsedIndex := -1, consecutiveUnused := 20 }
    ∧ ((5 : ℤ) ≤ receiveIndexAfterScan 5
          { index := 20, maxUsedIndex := -1, consecutiveUnused := 20 } ↔
        (5 : ℤ) ≤ newReceiveIndex
          { index := 20, maxUsedIndex := -1, consecutiveUnused := 20 }) :=
  scan_receiveIndex_overwrite 5 oracleAllUnused GAP_LIMIT
    { index := 20, maxUsedIndex := -1, consecutiveUnused := 20 } (by decide)

/-- C4 counterexample: a persisted receive index of 100 with an
oracle reporting no activity anywhere: the completed scan sets the
index to 20, strictly below its prior value - the known address set
is retracted, refuting the claim that it can never shrink. -/
theorem scan_retraction_counterexample :
    scanForActivity oracleAllUnused GAP_LIMIT =
      some { index := 20, maxUsedIndex := -1, consecutiveUnused := 20 }
    ∧ receiveIndexAfterScan 100
        { index := 20, maxUsedIndex := -1, consecutiveUnused := 20 } = 20
    ∧ ¬ (100 : ℤ) ≤ receiveIndexAfterScan 100
        { index := 20, maxUsedIndex := -1, consecutiveUnused := 20 } := by
  decide

/-- C5 (code divergence): the earlier revision passes sequence
0xfffffffd to every input, signalling replace-by-fee; the updated
revision passes no sequence field, so the library default 0xffffffff
applies and its inputs do not signal replace-by-fee, although its own
send button is labelled RBF enabled. -/
theorem rbf_sequence_divergence :
    (mkInputPrev
        { txid := "t0", vout := 0, value := 5646, address := "a1", confirmed := true }).sequence
      = 0xfffffffd
    ∧ signalsRBF (mkInputPrev
        { txid := "t0", vout := 0, value := 5646, address := "a1", confirmed := true }).sequence
    ∧ performSendPrev ["a1"]
        [{ txid := "t0", vout := 0, value := 5646, address := "a1", confirmed := true }]
        5546 100 "r" "c" =
      Except.ok
        { inputs := [mkInputPrev
            { txid := "t0", vout := 0, value := 5646, address := "a1", confirmed := true }],
          outputs := [{ address := "r", value := 5546 }] }
    ∧ performSend ["a1"]
        [{ txid := "t0", vout := 0, value := 5646, address := "a1", confirmed := true }]
        5546 100 "r" "c" =
      Except.ok
        { inputs := [mkInput
            { txid := "t0", vout := 0, value := 5646, address := "a1", confirmed := true }],
          outputs := [{ address := "r", value := 5546 }] }
    ∧ (mkInput
        { txid := "t0", vout := 0, value := 5646, address := "a1", confirmed := true }).sequence
      = 0xffffffff
    ∧ ¬ signalsRBF (mkInput
        { txid := "t0", vout := 0, value := 5646, address := "a1", confirmed := true }).sequence :=
  ⟨rfl, by decide, rfl, rfl, rfl, by decide⟩

/-- C6 (amended): with valid edits and at least two outputs, the
rebuild rejects with InsufficientFundsForFee whenever the recomputed
change (original total output minus the new amount) is negative, and
with DustChange when it lies strictly between 0 and 546 - the same
strict rule as the transaction builder; on any rejection the held raw
hex is unchanged and only rebuildError is set. -/
theorem rebuild_reject_rules (p : ParsedTx) (a fr : ℤ) (st : EditorState)
    (ha : 0 < a) (hf : 0 < fr) (hlen : 1 < p.outs.length) :
    (totalOutput p - a < 0 →
      rebuildTx p a fr = Except.error RebuildError.insufficientFundsForFee)
    ∧ (0 < totalOutput p - a → totalOutput p - a < 546 →
      rebuildTx p a fr = Except.error RebuildError.dustChange)
    ∧ (∀ e, rebuildTx { outs := st.rawOuts, vsize := st.vsize } a fr = Except.error e →
        rebuildClick st a fr =
          { rawOuts := st.rawOuts, vsize := st.vsize, rebuildError := some e }) := by
  refine ⟨?_, ?_, ?_⟩
  · intro h
    rw [rebuildTx_eq p a fr ha hf hlen, if_pos h]
  · intro h0 h546
    rw [rebuildTx_eq p a fr ha hf hlen, if_neg (by omega), if_pos ⟨h546, h0⟩]
  · intro e h
    unfold rebuildClick
    rw [h]

/-- C6 witness: over decoded outputs [10000, 1000] (total 11000),
editing the amount to 11001 is rejected for insufficient funds,
editing to 10455 (change 545) is rejected as dust, and the dust
rejection leaves the held outputs untouched. -/
theorem rebuild_reject_rules_witness :
    rebuildTx { outs := [10000, 1000], vsize := 110 } 11001 2 =
      Except.error RebuildError.insufficientFundsForFee
    ∧ rebuildTx { outs := [10000, 1000], vsize := 110 } 10455 2 =
      Except.error RebuildError.dustChange
    ∧ rebuildClick { rawOuts := [10000, 1000], vsize := 110, rebuildError := none } 10455 2 =
      { rawOuts := [10000, 1000], vsize := 110,
        rebuildError := some RebuildError.dustChange } :=
  ⟨(rebuild_reject_rules { outs := [10000, 1000], vsize := 110 } 11001 2
      { rawOuts := [10000, 1000], vsize := 110, rebuildError := none }
      (by decide) (by decide) (by decide)).1 (by decide),
   (rebuild_reject_rules { outs := [10000, 1000], vsize := 110 } 10455 2
      { rawOuts := [10000, 1000], vsize := 110, rebuildError := none }
      (by decide) (by decide) (by decide)).2.1 (by decide) (by decide),
   (rebuild_reject_rules { outs := [10000, 1000], vsize := 110 } 10455 2
      { rawOuts := [10000, 1000], vsize := 110, rebuildError := none }
      (by decide) (by decide) (by decide)).2.2 RebuildError.dustChange rfl⟩

/-- C6 counterexample: a recomputed change of exactly 546 sits inside
the claimed rejection band 0 < change <= 546, yet the rebuild
succeeds and rewrites the hex - the source check is newChange < 546
&& newChange > 0, strict at 546. -/
theorem rebuild_boundary_counterexample :
    totalOutput { outs := [10000, 1000], vsize := 110 } - 10454 = 546
    ∧ rebuildTx { outs := [10000, 1000], vsize := 110 } 10454 2 = Except.ok [10454, 546]
    ∧ rebuildClick { rawOuts := [10000, 1000], vsize := 110, rebuildError := none } 10454 2 =
        { rawOuts := [10454, 546], vsize := 110, rebuildError := none } :=
  ⟨by decide, rfl, rfl⟩

/-- C7: the fee model is integer-valued and linear: the earlier
revision computes vbytes exactly as 68 per input plus 43 per output
plus 11 overhead, the updated revision computes the integer ceiling
of 57.5 per input plus 43 per output plus 10.5 - in closed natural
form (115 i + 86 o + 22) / 2 - and in both revisions the estimated
fee is ceil(feeRate * vbytes), which for an integer fee rate is
exactly feeRate * vbytes. -/
theorem feeEstimation_linear_ceil (feeRate : ℚ) (i o : ℕ) :
    estimatedVsizePrev i o = 68 * i + 43 * o + 11
    ∧ estimatedFeePrev feeRate i o = ⌈feeRate * ((68 * i + 43 * o + 11 : ℕ) : ℚ)⌉
    ∧ (∀ n : ℕ, estimatedFeePrev (n : ℚ) i o = (n : ℤ) * (68 * i + 43 * o + 11))
    ∧ estimatedVsize i o = (((115 * i + 86 * o + 22) / 2 : ℕ) : ℤ)
    ∧ (∀ n : ℕ, estimatedFee (n : ℚ) i o = (n : ℤ) * estimatedVsize i o) := by
  have hlin : estimatedVsizePrev i o = 68 * i + 43 * o + 11 := by
    unfold estimatedVsizePrev; ring
  have hvs : estimatedVsize i o = (((115 * i + 86 * o + 22) / 2 : ℕ) : ℤ) := by
    unfold estimatedVsize
    have hform : (i : ℚ) * 57.5 + (o : ℚ) * 43 + 10.5 =
        ((115 * i + 86 * o + 21 : ℕ) : ℚ) / 2 := by
      push_cast; ring
    rw [hform, ceil_half]
  refine ⟨hlin, ?_, ?_, hvs, ?_⟩
  · unfold estimatedFeePrev
    rw [hlin]
  · intro n
    unfold estimatedFeePrev
    rw [hlin]
    rw [show (n : ℚ) * ((68 * i + 43 * o + 11 : ℕ) : ℚ) =
        ((n * (68 * i + 43 * o + 11) : ℕ) : ℚ) by push_cast; ring]
    rw [Int.ceil_natCast]
    push_cast
    ring
  · intro n
    unfold estimatedFee
    rw [show (n : ℚ) * ((estimatedVsize i o : ℤ) : ℚ) =
        (((n : ℤ) * estimatedVsize i o : ℤ) : ℚ) by push_cast; ring]
    rw [Int.ceil_intCast]

/-- C8 (amended): when the selected total strictly exceeds the
estimated fee (and the selection lies in the wallet), max send sets
the amount to exactly total minus fee, the resulting change is zero,
and the built transaction has the single recipient output and no
change output; at total exactly equal to the fee, max send sets the
amount to 0 and the build is rejected as an invalid amount. -/
theorem maxSend_zero_change (wallet : List String) (selected : List Utxo)
    (fee : ℤ) (recipient changeAddr : String)
    (hne : selected ≠ [])
    (hfee : fee < totalValue selected)
    (hw : ∀ u ∈ selected, u.address ∈ wallet) :
    handleMax selected fee = totalValue selected - fee
    ∧ totalValue selected - handleMax selected fee - fee = 0
    ∧ performSend wallet selected (handleMax selected fee) fee recipient changeAddr =
        Except.ok { inputs := selected.map mkInput,
                    outputs := [{ address := recipient,
                                  value := totalValue selected - fee }] } := by
  have hmax : handleMax selected fee = totalValue selected - fee := by
    unfold handleMax
    rw [max_eq_right (by omega)]
  refine ⟨hmax, by omega, ?_⟩
  rw [hmax]
  have h1 : ¬ totalValue selected - fee ≤ 0 := by omega
  have h2 : selected.isEmpty = false := List.isEmpty_eq_false.mpr hne
  have h3 : ¬ totalValue selected < (totalValue selected - fee) + fee := by omega
  have hc : totalValue selected - (totalValue selected - fee) - fee = 0 := by ring
  simp [performSend, h1, h2, h3, hc, buildInputs_all_in wallet selected hw]

/-- C8 witness: one selected output of 1546 units with estimated fee
500: max send computes 1046, and the build succeeds with the single
1046-unit recipient output and zero change. -/
theorem maxSend_zero_change_witness :
    handleMax [{ txid := "t0", vout := 0, value := 1546, address := "a1", confirmed := true }]
        500 =
      totalValue
        [{ txid := "t0", vout := 0, value := 1546, address := "a1", confirmed := true }] - 500
    ∧ totalValue
        [{ txid := "t0", vout := 0, value := 1546, address := "a1", confirmed := true }]
      - handleMax
          [{ txid := "t0", vout := 0, value := 1546, address := "a1", confirmed := true }] 500
      - 500 = 0
    ∧ performSend ["a1"]
        [{ txid := "t0", vout := 0, value := 1546, address := "a1", confirmed := true }]
        (handleMax
          [{ txid := "t0", vout := 0, value := 1546, address := "a1", confirmed := true }] 500)
        500 "r" "c" =
      Except.ok
        { inputs := [{ txid := "t0", vout := 0, value := 1546, address := "a1",
                       confirmed := true }].map mkInput,
          outputs := [{ address := "r",
                        value := totalValue
                          [{ txid := "t0", vout := 0, value := 1546, address := "a1",
                             confirmed := true }] - 500 }] } :=
  maxSend_zero_change ["a1"]
    [{ txid := "t0", vout := 0, value := 1546, address := "a1", confirmed := true }]
    500 "r" "c" (by decide) (by decide) (by decide)

/-- C8 counterexample: a selection whose total value equals the
estimated fee (at least, but not strictly above): max send computes
amount 0 and the build fails with an invalid amount instead of
producing a zero-change transaction. -/
theorem maxSend_equal_fee_counterexample :
    (1000 : ℤ) ≤ totalValue
      [{ txid := "t0", vout := 0, value := 1000, address := "a1", confirmed := true }]
    ∧ handleMax
        [{ txid := "t0", vout := 0, value := 1000, address := "a1", confirmed := true }]
        1000 = 0
    ∧ performSend ["a1"]
        [{ txid := "t0", vout := 0, value := 1000, address := "a1", confirmed := true }]
        (handleMax
          [{ txid := "t0", vout := 0, value := 1000, address := "a1", confirmed := true }]
          1000)
        1000 "r" "c" = Except.error SendError.invalidAmount :=
  ⟨by decide, by decide, rfl⟩

/-- C9: the refresh is a pure function of the address list and the
per-address oracle responses - two successive refreshes with the same
inputs return the same list - and the result is exactly the
concatenation, over addresses in derivation order, of each address
block, every element of which is tagged with its owning address. -/
theorem utxoRefresh_stable (fetch : String → Option (List FetchedUtxo))
    (addrs : List String) :
    getUtxos fetch addrs = getUtxos fetch addrs
    ∧ getUtxos fetch addrs = addrs.flatMap (fun a => tagUtxos a (fetch a))
    ∧ (∀ a u, u ∈ tagUtxos a (fetch a) → u.address = a) := by
  refine ⟨rfl, ?_, ?_⟩
  · unfold getUtxos
    split_ifs with h
    · rw [List.length_eq_zero] at h
      subst h
      simp
    · rw [getUtxosLoop_eq]
      simp
  · intro a u hu
    unfold tagUtxos at hu
    cases hq : fetch a with
    | none => rw [hq] at hu; simp at hu
    | some us =>
        rw [hq] at hu
        simp only [List.mem_map] at hu
        obtain ⟨v, _, hvu⟩ := hu
        rw [← hvu]

/-- C9 witness: over a concrete one-address oracle, the tagged
element of the address block carries that address. -/
theorem utxoRefresh_stable_witness :
    ({ txid := "t1", vout := 0, value := 7, address := "a1", confirmed := true } : Utxo).address
      = "a1" :=
  (utxoRefresh_stable
      (fun a => if a = "a1" then
        some [{ txid := "t1", vout := 0, value := 7, confirmed := true }] else none)
      ["a1"]).2.2 "a1"
    { txid := "t1", vout := 0, value := 7, address := "a1", confirmed := true }
    (by decide)

/-- C10: in the rebuild, the approximate input total is the original
total output plus the target fee, so the target fee cancels: the
whole rebuild result is independent of the (positive) chosen fee
rate, and on success the last output equals the original total output
minus the new first-output amount. -/
theorem rebuild_feeRate_independent (p : ParsedTx) (a fr fr' : ℤ)
    (ha : 0 < a) (hf : 0 < fr) (hf' : 0 < fr') (hlen : 1 < p.outs.length) :
    rebuildTx p a fr = rebuildTx p a fr'
    ∧ (∀ outs, rebuildTx p a fr = Except.ok outs →
        outs.getLast? = some (totalOutput p - a)) := by
  constructor
  · rw [rebuildTx_eq p a fr ha hf hlen, rebuildTx_eq p a fr' ha hf' hlen]
  · intro outs h
    rw [rebuildTx_eq p a fr ha hf hlen] at h
    split_ifs at h with h1 h2
    injection h with h'
    subst h'
    rw [List.getLast?_eq_getElem?]
    simp only [List.length_set]
    exact List.getElem?_set_self (by simp only [List.length_set]; omega)

/-- C10 witness: over decoded outputs [10000, 1000] with amount 9000,
fee rates 2 and 5 give the same rebuilt transaction. -/
theorem rebuild_feeRate_independent_witness :
    rebuildTx { outs := [10000, 1000], vsize := 110 } 9000 2 =
      rebuildTx { outs := [10000, 1000], vsize := 110 } 9000 5 :=
  (rebuild_feeRate_independent { outs := [10000, 1000], vsize := 110 } 9000 2 5
    (by decide) (by decide) (by decide) (by decide)).1

end BitPoc
